import Mathlib

/-!
# Verification of the Navvi static-analysis engine

Shallow embedding of the core analysis engine of the Navvi repository
(`src/lib/analysisEngine.ts`, given here as `src/unnamed/part_005`, together
with the legacy variant `src/src/lib/analysisEngine.ts` where a claim cites
it).  JavaScript numbers are modelled as `ℚ` where the code only performs
field arithmetic and comparisons, and as `ℝ` where it takes logarithms
(`Math.log`, `Math.log2`).  JavaScript `NaN`/`Infinity` propagation is
modelled explicitly by the `JSVal` type where a division can hit `0/0`.

Definitions are translated from the TypeScript source; definitions whose name
begins with `claimSpec`, and the worklist formulation `reachCount`, follow
the words of the specification or of an amended claim instead and are
compared against the source-derived ones.
-/

set_option maxHeartbeats 1000000

namespace Navvi

/-! ## JavaScript string primitives

Lean's own `String.splitOn`/`startsWith`/`endsWith` are compiled by
well-founded recursion and do not evaluate inside the kernel, so the
JavaScript string operations the engine uses are modelled structurally over
the character list (`String.data`), with the exact JS semantics. -/

/-- JS `s.split(sep)` for a one-character separator: the list of (possibly
empty) segments; `"x\n".split('\n')` is `["x", ""]`. -/
def jsSplitChar (sep : Char) : List Char → List (List Char)
  | [] => [[]]
  | c :: rest =>
    let r := jsSplitChar sep rest
    if c = sep then [] :: r
    else ((c :: r.headD []) :: r.tail)

/-- Join segments back with a separator (for Node's `path.dirname`). -/
def joinSegs (sep : Char) : List (List Char) → List Char
  | [] => []
  | [s] => s
  | s :: rest => s ++ sep :: joinSegs sep rest

/-- JS `s.startsWith(pre)`. -/
def jsStartsWith (s pre : String) : Bool :=
  decide (pre.data <+: s.data)

/-- JS `s.endsWith(suf)`. -/
def jsEndsWith (s suf : String) : Bool :=
  decide (suf.data <:+ s.data)

/-- JS `s.includes(sub)` (contiguous substring). -/
def jsIncludes (s sub : String) : Bool :=
  decide (sub.data <:+: s.data)

/-- JS `p.split('/').pop()`: the last slash-separated segment (the split of
a string is never empty, so `pop` always yields a segment). -/
def jsBasename (p : String) : String :=
  ⟨(jsSplitChar '/' p.data).getLastD []⟩

/-- Node `path.dirname` for the forward-slash repo-relative paths the
engine feeds it: everything before the last `/`, or `"."` when the path has
no directory part. -/
def dirname (p : String) : String :=
  let parts := jsSplitChar '/' p.data
  if parts.length ≤ 1 then "." else ⟨joinSegs '/' parts.dropLast⟩

/-! ## Data model (`src/types/analysis.ts` shapes, restricted to the fields
the analysis engine reads) -/

/-- `FunctionInfo` as pushed by the `analyzeAST` visitors: the engine later
only reads `name` and `complexity` (plus `line`/`endLine` for display). -/
structure FunctionInfo where
  name : String
  line : Nat
  endLine : Nat
  parameters : List String
  complexity : Nat
  deriving DecidableEq, Repr

/-- `MethodInfo` for class members (visibility as a raw string). -/
structure MethodInfo where
  name : String
  line : Nat
  endLine : Nat
  parameters : List String
  complexity : Nat
  visibility : String
  deriving DecidableEq, Repr

/-- `ClassInfo`: `complexity` is stored by `analyzeAST` as the sum of the
method complexities; `extends` is the raw superclass identifier, if any. -/
structure ClassInfo where
  name : String
  line : Nat
  endLine : Nat
  methods : List MethodInfo
  complexity : Nat
  «extends» : Option String
  deriving DecidableEq, Repr

/-- `ImportInfo` from an `ImportDeclaration`. -/
structure ImportInfo where
  module : String
  imports : List String
  line : Nat
  isDefault : Bool
  deriving DecidableEq, Repr

/-- `ExportInfo` (name, line, kind tag). -/
structure ExportInfo where
  name : String
  line : Nat
  type : String
  deriving DecidableEq, Repr

/-- `ComplexityMetrics` as returned by `calculateFileComplexity`
(part_005:971-988).  The `maintainability` field of the source record is a
real number obtained from `Math.log`; it is modelled by the separate function
`fileMaintainability` below (applied to the `cyclomatic` field), so that this
record stays decidable/executable. -/
structure ComplexityMetrics where
  cyclomatic : Nat
  cognitive : Nat
  halstead : Nat
  deriving DecidableEq, Repr

/-- `FileAnalysis` (the spec's FileRecord), with `path` already normalized to
the repo-relative forward-slash form (part_005:181) and `commitCount` patched
in from git history (0 when the history provider reports nothing). -/
structure FileAnalysis where
  path : String
  language : String
  size : Nat
  lines : Nat
  functions : List FunctionInfo
  classes : List ClassInfo
  imports : List ImportInfo
  «exports» : List ExportInfo
  complexity : ComplexityMetrics
  dependencies : List String
  commitCount : Nat
  deriving DecidableEq, Repr

/-- `ComponentAnalysis` (the spec's Component). -/
structure Component where
  name : String
  type : String
  files : List String
  dependencies : List String
  complexity : Nat
  description : String
  patterns : List String
  deriving DecidableEq, Repr

/-- `Relationship`: a directed component-to-component edge.  The TypeScript
field `from` is a Lean keyword and is rendered `from_`. -/
structure Relationship where
  from_ : String
  to_ : String
  type : String
  strength : ℚ
  deriving DecidableEq, Repr

/-! ## Complexity calculator (`calculateFunctionComplexity`, part_005:915-969)

The walker receives raw Babel AST objects.  An AST node is modelled as a type
tag, a list of scalar string properties (`name`, `operator`, ...), a list of
object-valued properties (keyed single child nodes) and a list of
array-valued properties (keyed child-node arrays).  `for (const key in n)`
visits all of them; scalar properties are ignored by the walk
(`typeof child === 'object'` fails), single object children are recursed into
only when their `type` is not a function/class form, and array elements are
passed to `walk` directly (`child.forEach(walk)`), without that filter. -/

mutual
inductive Ast : Type where
  | mk (ty : String) (strs : List (String × String)) (objs : ObjKids) (arrs : ArrKids)

/-- The object-valued (single-node) properties of a node, keyed. -/
inductive ObjKids : Type where
  | nil
  | cons (key : String) (node : Ast) (rest : ObjKids)

/-- The array-valued properties of a node, keyed. -/
inductive ArrKids : Type where
  | nil
  | cons (key : String) (nodes : AstArr) (rest : ArrKids)

/-- One child-node array. -/
inductive AstArr : Type where
  | nil
  | cons (node : Ast) (rest : AstArr)
end

/-- The `type` tag of a node. -/
def Ast.ty : Ast → String
  | .mk t _ _ _ => t

/-- Scalar string property lookup (JS `n.key`), empty string if absent. -/
def Ast.strField (a : Ast) (key : String) : String :=
  match a with
  | .mk _ strs _ _ => ((strs.find? (fun p => p.1 = key)).map Prod.snd).getD ""

/-- Object-valued property lookup (JS `n.key` when the value is a node). -/
def Ast.objField (a : Ast) (key : String) : Option Ast :=
  match a with
  | .mk _ _ objs _ => go objs
where
  go : ObjKids → Option Ast
    | .nil => none
    | .cons k n rest => if k = key then some n else go rest

/-- The `switch` of the walker: node types that increment the complexity
counter (`isComplexityNode` in the source).  A `LogicalExpression` counts
only for the `&&` and `||` operators. -/
def isComplexityNode (ty : String) (op : String) : Bool :=
  ty = "IfStatement" || ty = "ForStatement" || ty = "ForInStatement" ||
  ty = "ForOfStatement" || ty = "WhileStatement" || ty = "DoWhileStatement" ||
  ty = "SwitchCase" || ty = "CatchClause" || ty = "ConditionalExpression" ||
  (ty = "LogicalExpression" && (op = "&&" || op = "||"))

/-- The object-child filter of the walker: single object children of these
types are not recursed into ("Prevent walking into nested function/class
definitions", part_005:953-955). -/
def isNestedCallable (ty : String) : Bool :=
  ty = "FunctionDeclaration" || ty = "FunctionExpression" ||
  ty = "ArrowFunctionExpression" || ty = "ClassDeclaration"

/-- Whether `walk` increments the counter at this node
(`isComplexityNode` in the source, with the operator read off the node). -/
def countedNode (a : Ast) : Bool :=
  isComplexityNode a.ty (a.strField "operator")

mutual
/-- The number of increments `walk(n)` adds to `complexity`
(part_005:918-962): count the node if it is a complexity node, and recurse on
its children unless it is a complexity node other than a
`LogicalExpression`. -/
def walkCount : Ast → Nat
  | a@(.mk ty _ objs arrs) =>
    (if countedNode a then 1 else 0) +
    (if countedNode a && ty ≠ "LogicalExpression" then 0
     else walkObjKids objs + walkArrKids arrs)

/-- Walk the object-valued children: function/class children are skipped. -/
def walkObjKids : ObjKids → Nat
  | .nil => 0
  | .cons _ n rest =>
    (if isNestedCallable n.ty then 0 else walkCount n) + walkObjKids rest

/-- Walk the array-valued children: every element goes straight to `walk`. -/
def walkArrKids : ArrKids → Nat
  | .nil => 0
  | .cons _ ns rest => walkAstArr ns + walkArrKids rest

/-- Walk the elements of one child array. -/
def walkAstArr : AstArr → Nat
  | .nil => 0
  | .cons n rest => walkCount n + walkAstArr rest
end

/-- `calculateFunctionComplexity(node)`: base complexity 1 plus the walk of
`node.body` (when present). -/
def calculateFunctionComplexity (body : Option Ast) : Nat :=
  1 + match body with
      | some b => walkCount b
      | none => 0

/-! ### The specification's count, for comparison with the walker

`claimSpecCount` follows the words of the claim: one per occurrence of a
decision point anywhere in the body, including decision points nested inside
other decision points, except that subtrees rooted at a nested function,
function expression, arrow function, method or class are excluded
entirely. -/

/-- Node types whose bodies the specification excludes ("nested function,
method, arrow-function, or class bodies"). -/
def claimExcludedCallable (ty : String) : Bool :=
  ty = "FunctionDeclaration" || ty = "FunctionExpression" ||
  ty = "ArrowFunctionExpression" || ty = "ClassMethod" || ty = "ObjectMethod" ||
  ty = "ClassDeclaration" || ty = "ClassExpression"

mutual
/-- Modelled from the spec: count every decision-point occurrence in the
subtree, excluding nested callable/class subtrees in every position. -/
def claimSpecCount : Ast → Nat
  | a@(.mk _ _ objs arrs) =>
    (if countedNode a then 1 else 0) +
    claimSpecObjKids objs + claimSpecArrKids arrs

/-- Spec count over object-valued children. -/
def claimSpecObjKids : ObjKids → Nat
  | .nil => 0
  | .cons _ n rest =>
    (if claimExcludedCallable n.ty then 0 else claimSpecCount n) + claimSpecObjKids rest

/-- Spec count over array-valued children. -/
def claimSpecArrKids : ArrKids → Nat
  | .nil => 0
  | .cons _ ns rest => claimSpecAstArr ns + claimSpecArrKids rest

/-- Spec count over the elements of one child array. -/
def claimSpecAstArr : AstArr → Nat
  | .nil => 0
  | .cons n rest =>
    (if claimExcludedCallable n.ty then 0 else claimSpecCount n) + claimSpecAstArr rest
end

/-- Modelled from the spec: `1 +` the spec's decision-point count of the
body. -/
def claimSpecComplexity (body : Option Ast) : Nat :=
  1 + match body with
      | some b => claimSpecCount b
      | none => 0

/-! ### Reachability formulation of the implemented walk

The amended claim describes the walker by which occurrences it actually
reaches: a worklist that, at a counted decision node other than a logical
expression, stops (its children are never examined), and otherwise continues
into the object-valued children that are not function/class forms and into
every element of the array-valued children. -/

/-- The object-valued children that the walk may continue into (function and
class forms are skipped in this position). -/
def objKidsNodes : ObjKids → List Ast
  | .nil => []
  | .cons _ n rest =>
    (if isNestedCallable n.ty then [] else [n]) ++ objKidsNodes rest

/-- All elements of one child array (walked unconditionally). -/
def astArrNodes : AstArr → List Ast
  | .nil => []
  | .cons n rest => n :: astArrNodes rest

/-- All elements of all array-valued children. -/
def arrKidsNodes : ArrKids → List Ast
  | .nil => []
  | .cons _ ns rest => astArrNodes ns ++ arrKidsNodes rest

/-- The nodes the walk continues into from `a`: none when `a` is a counted
decision node other than a logical expression. -/
def kidsOf : Ast → List Ast
  | a@(.mk ty _ objs arrs) =>
    if countedNode a && ty ≠ "LogicalExpression" then []
    else objKidsNodes objs ++ arrKidsNodes arrs

mutual
/-- Size measure on AST nodes (for worklist termination). -/
def astSize : Ast → Nat
  | .mk _ _ objs arrs => 1 + objsSize objs + arrsSize arrs

/-- Size of the object-valued children. -/
def objsSize : ObjKids → Nat
  | .nil => 0
  | .cons _ n rest => astSize n + objsSize rest

/-- Size of the array-valued children. -/
def arrsSize : ArrKids → Nat
  | .nil => 0
  | .cons _ ns rest => astArrSize ns + arrsSize rest

/-- Size of one child array. -/
def astArrSize : AstArr → Nat
  | .nil => 0
  | .cons n rest => astSize n + astArrSize rest
end

/-- Total size of a worklist. -/
def worklistSize (l : List Ast) : Nat := (l.map astSize).sum

theorem astArrNodes_size : (ns : AstArr) →
    worklistSize (astArrNodes ns) = astArrSize ns
  | .nil => rfl
  | .cons n rest => by
    have ih := astArrNodes_size rest
    simp only [astArrNodes, astArrSize, worklistSize, List.map_cons,
      List.sum_cons] at *
    omega

theorem arrKidsNodes_size : (arrs : ArrKids) →
    worklistSize (arrKidsNodes arrs) = arrsSize arrs
  | .nil => rfl
  | .cons _ ns rest => by
    have ih := arrKidsNodes_size rest
    have h1 := astArrNodes_size ns
    simp only [arrKidsNodes, arrsSize, worklistSize, List.map_append,
      List.sum_append] at *
    omega

theorem objKidsNodes_size : (objs : ObjKids) →
    worklistSize (objKidsNodes objs) ≤ objsSize objs
  | .nil => Nat.le_refl _
  | .cons _ n rest => by
    have ih := objKidsNodes_size rest
    simp only [objKidsNodes, objsSize, worklistSize, List.map_append,
      List.sum_append] at *
    split
    · simp only [List.map_nil, List.sum_nil]
      omega
    · simp only [List.map_cons, List.map_nil, List.sum_cons, List.sum_nil]
      omega

theorem kidsOf_size_lt (a : Ast) : worklistSize (kidsOf a) < astSize a := by
  obtain ⟨ty, strs, objs, arrs⟩ := a
  simp only [kidsOf]
  split
  · simp [worklistSize, astSize]
  · simp only [worklistSize, List.map_append, List.sum_append, astSize]
    have h1 := objKidsNodes_size objs
    have h2 := arrKidsNodes_size arrs
    simp only [worklistSize] at h1 h2
    omega

/-- The worklist count of reachable occurrences: count the head node if it
is a counted decision point, then continue with the children the walk
continues into. -/
def reachCount : List Ast → Nat
  | [] => 0
  | a :: rest =>
    (if countedNode a then 1 else 0) + reachCount (kidsOf a ++ rest)
  termination_by l => worklistSize l
  decreasing_by
    simp only [worklistSize, List.map_append, List.sum_append, List.map_cons,
      List.sum_cons]
    have := kidsOf_size_lt a
    simp only [worklistSize] at this
    omega

theorem reachCount_append (l₁ l₂ : List Ast) :
    reachCount (l₁ ++ l₂) = reachCount l₁ + reachCount l₂ := by
  generalize h : worklistSize l₁ = n
  induction n using Nat.strong_induction_on generalizing l₁ with
  | _ n ih =>
    match l₁ with
    | [] => simp [reachCount]
    | a :: rest =>
      rw [List.cons_append, reachCount, reachCount, ← List.append_assoc]
      have hlt : worklistSize (kidsOf a ++ rest) < n := by
        subst h
        simp only [worklistSize, List.map_append, List.sum_append,
          List.map_cons, List.sum_cons]
        have := kidsOf_size_lt a
        simp only [worklistSize] at this
        omega
      rw [ih _ hlt _ rfl]
      omega

theorem reachCount_cons (a : Ast) (l : List Ast) :
    reachCount (a :: l) = reachCount [a] + reachCount l := by
  have := reachCount_append [a] l
  simpa using this

theorem walkObjKids_eq_sum : (objs : ObjKids) →
    walkObjKids objs = ((objKidsNodes objs).map walkCount).sum
  | .nil => rfl
  | .cons _ n rest => by
    have ih := walkObjKids_eq_sum rest
    simp only [walkObjKids, objKidsNodes, List.map_append, List.sum_append, ih]
    split
    · simp
    · simp

theorem walkAstArr_eq_sum : (ns : AstArr) →
    walkAstArr ns = ((astArrNodes ns).map walkCount).sum
  | .nil => rfl
  | .cons n rest => by
    have ih := walkAstArr_eq_sum rest
    simp [walkAstArr, astArrNodes, ih]

theorem walkArrKids_eq_sum : (arrs : ArrKids) →
    walkArrKids arrs = ((arrKidsNodes arrs).map walkCount).sum
  | .nil => rfl
  | .cons _ ns rest => by
    have ih := walkArrKids_eq_sum rest
    simp [walkArrKids, arrKidsNodes, walkAstArr_eq_sum, ih]

theorem mem_objKidsNodes_size {x : Ast} : {objs : ObjKids} →
    x ∈ objKidsNodes objs → astSize x ≤ objsSize objs
  | .nil, hx => by simp [objKidsNodes] at hx
  | .cons _ n rest, hx => by
    simp only [objKidsNodes, List.mem_append] at hx
    by_cases hc : isNestedCallable n.ty = true
    · simp only [hc, if_true, List.not_mem_nil, false_or] at hx
      have := mem_objKidsNodes_size hx
      simp only [objsSize]
      omega
    · simp only [hc, Bool.false_eq_true, if_false, List.mem_singleton] at hx
      rcases hx with hx | hx
      · subst hx
        simp only [objsSize]
        omega
      · have := mem_objKidsNodes_size hx
        simp only [objsSize]
        omega

theorem mem_astArrNodes_size {x : Ast} : {ns : AstArr} →
    x ∈ astArrNodes ns → astSize x ≤ astArrSize ns
  | .nil, hx => by simp [astArrNodes] at hx
  | .cons n rest, hx => by
    simp only [astArrNodes, List.mem_cons] at hx
    rcases hx with hx | hx
    · subst hx; simp only [astArrSize]; omega
    · have := mem_astArrNodes_size hx
      simp only [astArrSize]
      omega

theorem mem_arrKidsNodes_size {x : Ast} : {arrs : ArrKids} →
    x ∈ arrKidsNodes arrs → astSize x ≤ arrsSize arrs
  | .nil, hx => by simp [arrKidsNodes] at hx
  | .cons _ ns rest, hx => by
    simp only [arrKidsNodes, List.mem_append] at hx
    rcases hx with hx | hx
    · have := mem_astArrNodes_size hx
      simp only [arrsSize]
      omega
    · have := mem_arrKidsNodes_size hx
      simp only [arrsSize]
      omega

theorem reachCount_pointwise (l : List Ast)
    (hl : ∀ x ∈ l, walkCount x = reachCount [x]) :
    (l.map walkCount).sum = reachCount l := by
  induction l with
  | nil => simp [reachCount]
  | cons x t iht =>
    rw [List.map_cons, List.sum_cons, reachCount_cons, hl x (by simp),
      iht (fun y hy => hl y (List.mem_cons_of_mem _ hy))]

theorem walkCount_eq_reachCount (a : Ast) : walkCount a = reachCount [a] := by
  generalize h : astSize a = n
  induction n using Nat.strong_induction_on generalizing a with
  | _ n ih =>
    obtain ⟨ty, strs, objs, arrs⟩ := a
    rw [reachCount, List.append_nil, walkCount, kidsOf]
    by_cases hstop :
        (countedNode (.mk ty strs objs arrs) && !(ty = "LogicalExpression" : Bool)) = true
    · simp only [ne_eq, decide_not] at *
      rw [if_pos hstop, if_pos hstop]
      simp [reachCount]
    · simp only [ne_eq, decide_not] at *
      rw [if_neg hstop, if_neg hstop]
      congr 1
      rw [reachCount_append, walkObjKids_eq_sum, walkArrKids_eq_sum]
      have hsz : astSize (Ast.mk ty strs objs arrs) = n := h
      rw [astSize] at hsz
      have hobj : ((objKidsNodes objs).map walkCount).sum =
          reachCount (objKidsNodes objs) := by
        apply reachCount_pointwise
        intro x hx
        have hb := mem_objKidsNodes_size hx
        exact ih (astSize x) (by omega) x rfl
      have harr : ((arrKidsNodes arrs).map walkCount).sum =
          reachCount (arrKidsNodes arrs) := by
        apply reachCount_pointwise
        intro x hx
        have hb := mem_arrKidsNodes_size hx
        exact ih (astSize x) (by omega) x rfl
      omega

/-! ## File-level complexity (`calculateFileComplexity`, part_005:971-988) -/

/-- `calculateFileComplexity`: cyclomatic sums functions *and* classes,
cognitive sums functions only, halstead is `cyclomatic * 2`. -/
def calculateFileComplexity (functions : List FunctionInfo)
    (classes : List ClassInfo) : ComplexityMetrics :=
  let cyclomatic := (functions.map (·.complexity)).sum +
                    (classes.map (·.complexity)).sum
  let cognitive := (functions.map (·.complexity)).sum
  let halstead := cyclomatic * 2
  { cyclomatic := cyclomatic, cognitive := cognitive, halstead := halstead }

/-- The `maintainability` field of `calculateFileComplexity`
(part_005:980): `Math.max(0, 171 - 5.2 * Math.log(cyclomatic)
- 0.23 * cyclomatic)` — note: no upper clamp and no line-count term. -/
noncomputable def fileMaintainability (cyclomatic : Nat) : ℝ :=
  max 0 (171 - 5.2 * Real.log cyclomatic - 0.23 * cyclomatic)

/-! ## Repository-level maintainability (`calculateMaintainabilityIndex`,
part_005:745-756) -/

/-- `const totalComplexity = files.reduce((sum, f) => sum + f.complexity.cyclomatic, 0)`. -/
def totalComplexityOf (files : List FileAnalysis) : Nat :=
  (files.map (·.complexity.cyclomatic)).sum

/-- `const totalLines = files.reduce((sum, f) => sum + f.lines, 0)`. -/
def totalLinesOf (files : List FileAnalysis) : Nat :=
  (files.map (·.lines)).sum

/-- `const volume = totalLines * Math.log2(totalComplexity || 1)`
(`x || 1` replaces a zero by 1). -/
noncomputable def repoVolume (files : List FileAnalysis) : ℝ :=
  (totalLinesOf files : ℝ) *
    Real.logb 2 (if totalComplexityOf files = 0 then 1 else (totalComplexityOf files : ℝ))

/-- `calculateMaintainabilityIndex`: 100 when the total line count is 0,
otherwise the log-volume formula clamped by
`Math.max(0, Math.min(100, ·))`. -/
noncomputable def calculateMaintainabilityIndex (files : List FileAnalysis) : ℝ :=
  if totalLinesOf files = 0 then 100
  else
    max 0 (min 100 (171 - 5.2 * Real.log (repoVolume files)
                      - 0.23 * (totalComplexityOf files : ℝ)
                      - 16.2 * Real.log (totalLinesOf files : ℝ)))

end Navvi

namespace Navvi

/-! ## Theorems for claim C1 -/

/-- `if (b) {}` -/
def exInnerIf : Ast :=
  .mk "IfStatement" []
    (.cons "test" (.mk "Identifier" [("name", "b")] .nil .nil)
      (.cons "consequent" (.mk "BlockStatement" [] .nil (.cons "body" .nil .nil)) .nil))
    .nil

/-- `{ if (a) { if (b) {} } }`: a function body whose outer `if` wraps a
second `if`. -/
def exNestedIfBody : Ast :=
  .mk "BlockStatement" [] .nil
    (.cons "body"
      (.cons
        (.mk "IfStatement" []
          (.cons "test" (.mk "Identifier" [("name", "a")] .nil .nil)
            (.cons "consequent"
              (.mk "BlockStatement" [] .nil (.cons "body" (.cons exInnerIf .nil) .nil))
              .nil))
          .nil)
        .nil)
      .nil)

/-- `{ function inner() { if (a) {} if (b) {} if (c) {} } }`: a function body
whose only statement is a nested function declaration with three `if`s. -/
def exNestedFnBody : Ast :=
  .mk "BlockStatement" [] .nil
    (.cons "body"
      (.cons
        (.mk "FunctionDeclaration" []
          (.cons "id" (.mk "Identifier" [("name", "inner")] .nil .nil)
            (.cons "body"
              (.mk "BlockStatement" [] .nil
                (.cons "body"
                  (.cons (.mk "IfStatement" []
                      (.cons "test" (.mk "Identifier" [("name", "a")] .nil .nil) .nil) .nil)
                    (.cons (.mk "IfStatement" []
                        (.cons "test" (.mk "Identifier" [("name", "b")] .nil .nil) .nil) .nil)
                      (.cons (.mk "IfStatement" []
                          (.cons "test" (.mk "Identifier" [("name", "c")] .nil .nil) .nil) .nil)
                        .nil)))
                  .nil))
              .nil))
          .nil)
        .nil)
      .nil)

/-- C1 (counterexample): the walker does not implement the claimed count.
For a body `{ if (a) { if (b) {} } }` the code returns 2 (the walk never
descends into the children of a counted `if`), while the claim's count — one
per occurrence, including decision points nested inside other decision
points — gives 3.  For a body whose only statement is a nested function
declaration containing three `if`s the code returns 4 (statement-list
elements are handed to `walk` directly, bypassing the nested-function
filter), while the claim's count — which excludes nested function bodies —
gives 1. -/
theorem calculateFunctionComplexity_ne_claim :
    calculateFunctionComplexity (some exNestedIfBody) = 2 ∧
    claimSpecComplexity (some exNestedIfBody) = 3 ∧
    calculateFunctionComplexity (some exNestedIfBody) ≠
      claimSpecComplexity (some exNestedIfBody) ∧
    calculateFunctionComplexity (some exNestedFnBody) = 4 ∧
    claimSpecComplexity (some exNestedFnBody) = 1 ∧
    calculateFunctionComplexity (some exNestedFnBody) ≠
      claimSpecComplexity (some exNestedFnBody) := by
  refine ⟨by decide, by decide, by decide, by decide, by decide, by decide⟩

/-- C1 (amended): the calculator returns 1 plus one for each decision-point
occurrence actually reached by its walk, where the walk (i) does not examine
the children of a counted decision node, except a logical expression, whose
operands are examined — so decision points nested inside another counted
decision point are not counted — and (ii) skips nested function, arrow,
function-expression and class nodes only when they occur as single
object-valued children, while descending into such nodes when they are
elements of array-valued children (e.g. statement lists or call-argument
lists).  `reachCount` is the worklist formulation of exactly this
reachability. -/
theorem calculateFunctionComplexity_eq_reachable (body : Ast) :
    calculateFunctionComplexity (some body) = 1 + reachCount [body] := by
  rw [calculateFunctionComplexity, walkCount_eq_reachCount]

/-! ## Named-function extraction (`analyzeAST` visitors)

Babel's `traverse` invokes the visitor for every node of the matching type,
with `path.parent` the parent node; the visitors below model what one such
invocation records (the name pushed into `functions`, or `none`).  The full
pushed record also carries the location, parameter names and
`calculateFunctionComplexity` of the node. -/

/-- The condition `t.isVariableDeclarator(path.parent) &&
t.isIdentifier(path.parent.id)` together with the recorded name
`path.parent.id.name`. -/
def varDeclaratorBinding (parent : Ast) : Option String :=
  if parent.ty = "VariableDeclarator" then
    match parent.objField "id" with
    | some idNode => if idNode.ty = "Identifier" then some (idNode.strField "name") else none
    | none => none
  else none

/-- The `FunctionExpression` visitor of part_005:364-378: a function
expression is recorded only via `func.id` (its own name); the parent is not
consulted. -/
def functionExpressionRecord (func : Ast) (_parent : Ast) : Option String :=
  match func.objField "id" with
  | some idNode => some (idNode.strField "name")
  | none => none

/-- The `ArrowFunctionExpression` visitor of part_005:380-395: recorded
exactly when the parent is a variable declarator with an identifier
binding. -/
def arrowFunctionRecord (_func : Ast) (parent : Ast) : Option String :=
  varDeclaratorBinding parent

/-- The `FunctionExpression` visitor of the legacy engine
(src/src/lib/analysisEngine.ts:199-213): the declarator-binding rule. -/
def functionExpressionRecordLegacy (_func : Ast) (parent : Ast) : Option String :=
  varDeclaratorBinding parent

/-! ## Theorems for claim C4 -/

/-- An anonymous function expression (`function () {}`, no `id`). -/
def exAnonFunctionExpression : Ast :=
  .mk "FunctionExpression" []
    (.cons "body" (.mk "BlockStatement" [] .nil (.cons "body" .nil .nil)) .nil)
    .nil

/-- `const f = function () {}`: a variable declarator with identifier
binding `f` whose initializer is the anonymous function expression. -/
def exVarDeclarator : Ast :=
  .mk "VariableDeclarator" []
    (.cons "id" (.mk "Identifier" [("name", "f")] .nil .nil)
      (.cons "init" exAnonFunctionExpression .nil))
    .nil

/-- C4 (counterexample): in the primary engine an anonymous function
expression on the right-hand side of `const f = function () {}` is *not*
recorded — the visitor only looks at the expression's own `id` — although
the claimed rule (the declarator-binding rule, which the legacy engine and
the arrow-function visitor do implement) would record it under the binding
name `f`. -/
theorem functionExpression_not_recorded_at_declarator :
    (exAnonFunctionExpression.objField "id") = none ∧
    varDeclaratorBinding exVarDeclarator = some "f" ∧
    functionExpressionRecord exAnonFunctionExpression exVarDeclarator = none := by
  refine ⟨rfl, rfl, rfl⟩

/-- C4 (amended): the primary engine records a function expression exactly
when the expression carries its own identifier, under that identifier's name
and regardless of where the expression occurs (the result is independent of
the parent); the declarator-binding rule of the claim is implemented by the
arrow-function visitor and by the legacy engine's function-expression
visitor. -/
theorem functionExpression_recording_rule (func parent parent' : Ast) :
    functionExpressionRecord func parent = functionExpressionRecord func parent' ∧
    functionExpressionRecord func parent =
      (func.objField "id").map (fun idNode => idNode.strField "name") ∧
    arrowFunctionRecord func parent = varDeclaratorBinding parent ∧
    functionExpressionRecordLegacy func parent = varDeclaratorBinding parent := by
  refine ⟨rfl, ?_, rfl, rfl⟩
  unfold functionExpressionRecord
  cases func.objField "id" <;> rfl

/-! ## Line counting (`analyzeAST` result record)

The parser is an external collaborator (`@babel/parser`); its end-of-program
location `ast.program.loc?.end.line` is therefore an input of the model.
Only the record fields built at part_005:492-496 (and the corresponding
legacy lines src/src/lib/analysisEngine.ts:325-337) are modelled here; the
`functions`/`classes`/... fields come from the traversal modelled above. -/

/-- The parse result, as far as the record assembly reads it. -/
structure BabelFileAst where
  programEndLine : Option Nat
  deriving DecidableEq, Repr

/-- The scalar fields of the `FileAnalysis` record assembled by
`analyzeAST`. -/
structure FileRecordMeta where
  path : String
  size : Nat
  lines : Nat
  deriving DecidableEq, Repr

/-- part_005:492-496: `size: content.length`,
`lines: ast.program.loc?.end.line || 0`. -/
def analyzeASTMeta (filePath content : String) (ast : BabelFileAst) : FileRecordMeta :=
  { path := filePath, size := content.length, lines := ast.programEndLine.getD 0 }

/-- src/src/lib/analysisEngine.ts:325-337: same record, except
`lines: content.split('\n').length`. -/
def legacyAnalyzeASTMeta (filePath content : String) (_ast : BabelFileAst) : FileRecordMeta :=
  { path := filePath, size := content.length,
    lines := (jsSplitChar '\n' content.data).length }

/-! ## Theorems for claim C3 -/

/-- C3 (counterexample): for the source text `"const a = 1;\n\n\n"` the
parser's end-of-program location is line 1 (Babel finishes the `Program`
node at the last token, the `;`), but the legacy engine stores the
newline-segment count 4.  So the claim does not hold of every `FileAnalysis`
record this repository builds: the engine variant at
src/src/lib/analysisEngine.ts:329 — the one imported by the analyze API
route — uses naive newline counting. -/
theorem legacy_lines_ne_parser_end :
    (legacyAnalyzeASTMeta "src/a.ts" "const a = 1;\n\n\n" ⟨some 1⟩).lines = 4 ∧
    (analyzeASTMeta "src/a.ts" "const a = 1;\n\n\n" ⟨some 1⟩).lines = 1 ∧
    (legacyAnalyzeASTMeta "src/a.ts" "const a = 1;\n\n\n" ⟨some 1⟩).lines ≠
      (analyzeASTMeta "src/a.ts" "const a = 1;\n\n\n" ⟨some 1⟩).lines := by
  refine ⟨by decide, by decide, by decide⟩

/-- C3 (amended): the primary engine's line count is exactly the parser's
end-of-program line and does not depend on the raw text, while the legacy
engine's line count is the newline-segment count of the raw text and does
not depend on the parser's location. -/
theorem analyzeAST_lines_from_ast_end (filePath content content' : String)
    (ast ast' : BabelFileAst) (e : Nat) (h : ast.programEndLine = some e) :
    (analyzeASTMeta filePath content ast).lines = e ∧
    (analyzeASTMeta filePath content ast).lines =
      (analyzeASTMeta filePath content' ast).lines ∧
    (legacyAnalyzeASTMeta filePath content ast).lines =
      (legacyAnalyzeASTMeta filePath content ast').lines := by
  refine ⟨?_, rfl, rfl⟩
  simp [analyzeASTMeta, h]

/-- C3 (witness for the amended theorem). -/
theorem analyzeAST_lines_from_ast_end_witness :
    (⟨some 7⟩ : BabelFileAst).programEndLine = some 7 ∧
    ((analyzeASTMeta "a.ts" "x" ⟨some 7⟩).lines = 7 ∧
     (analyzeASTMeta "a.ts" "x" ⟨some 7⟩).lines =
       (analyzeASTMeta "a.ts" "y\nz" ⟨some 7⟩).lines ∧
     (legacyAnalyzeASTMeta "a.ts" "x" ⟨some 7⟩).lines =
       (legacyAnalyzeASTMeta "a.ts" "x" ⟨none⟩).lines) :=
  ⟨rfl, analyzeAST_lines_from_ast_end "a.ts" "x" "y\nz" ⟨some 7⟩ ⟨none⟩ 7 rfl⟩

/-! ## Entry points (`generateInsights`, part_005:783-785) -/

/-- `files.filter(f => f.exports.length > 0).map(f => ({ path: f.path,
exports: f.exports.map(e => e.name) }))`. -/
def entryPointsOf (files : List FileAnalysis) : List (String × List String) :=
  (files.filter (fun f => 0 < f.exports.length)).map
    (fun f => (f.path, f.exports.map (·.name)))

/-! ## Theorems for claim C6 -/

/-- A file with four exports (for the counterexample). -/
def exFileFourExports : FileAnalysis :=
  { path := "src/util.ts", language := "ts", size := 80, lines := 9,
    functions := [], classes := [], imports := [],
    «exports» := [⟨"a", 1, "function"⟩, ⟨"b", 3, "function"⟩,
                  ⟨"c", 5, "function"⟩, ⟨"d", 7, "function"⟩],
    complexity := ⟨0, 0, 0⟩, dependencies := [], commitCount := 0 }

/-- C6 (counterexample): the insights entry-point list does not truncate to
the first 3 export names and carries no ellipsis indicator: a file with 4
exports is listed with all 4 names. -/
theorem entryPoints_lists_all_names :
    entryPointsOf [exFileFourExports] =
      [("src/util.ts", ["a", "b", "c", "d"])] ∧
    ∃ e ∈ entryPointsOf [exFileFourExports], ¬ e.2.length ≤ 3 := by
  refine ⟨by decide, by decide⟩

/-- C6 (amended): every file with at least one export appears in the
entry-point list, and each entry carries the file's path together with all
of its export names (the truncation to the first 3 names plus an `...`
indicator happens only in the dashboard rendering, not in the insights
data). -/
theorem entryPoints_characterization (files : List FileAnalysis) :
    (∀ f ∈ files, 0 < f.exports.length →
        (f.path, f.exports.map (·.name)) ∈ entryPointsOf files) ∧
    (∀ e ∈ entryPointsOf files, ∃ f ∈ files,
        0 < f.exports.length ∧ e = (f.path, f.exports.map (·.name))) := by
  constructor
  · intro f hf hlen
    exact List.mem_map_of_mem _ (List.mem_filter.mpr ⟨hf, by simpa using hlen⟩)
  · intro e he
    simp only [entryPointsOf, List.mem_map, List.mem_filter,
      decide_eq_true_eq] at he
    obtain ⟨f, ⟨hf, hp⟩, rfl⟩ := he
    exact ⟨f, hf, hp, rfl⟩

/-! ## Averages and the complexity-distribution narrative

`analyzeComplexityDistribution` (part_005:819-826) divides by
`complexities.length` without a guard; JavaScript `0/0` is `NaN`, and
`NaN < c` is false for every `c`.  The `JSVal` type makes this explicit. -/

/-- A JavaScript number that may be `NaN` or `±Infinity`. -/
inductive JSVal where
  | nan
  | inf
  | ninf
  | num (q : ℚ)
  deriving DecidableEq, Repr

/-- JavaScript division: `0/0 = NaN`, `±x/0 = ±Infinity`. -/
def jsDiv (a b : ℚ) : JSVal :=
  if b = 0 then (if a = 0 then .nan else if 0 < a then .inf else .ninf)
  else .num (a / b)

/-- JavaScript `<` against a finite literal: false for `NaN`. -/
def JSVal.ltQ : JSVal → ℚ → Bool
  | .nan, _ => false
  | .inf, _ => false
  | .ninf, _ => true
  | .num q, c => decide (q < c)

/-- The unguarded average of `analyzeComplexityDistribution`:
`complexities.reduce((sum, c) => sum + c, 0) / complexities.length`. -/
def complexityDistributionAvg (files : List FileAnalysis) : JSVal :=
  jsDiv ((files.map (fun f => (f.complexity.cyclomatic : ℚ))).sum)
    (files.length)

/-- `analyzeComplexityDistribution` (part_005:819-826). -/
def analyzeComplexityDistribution (files : List FileAnalysis) : String :=
  if (complexityDistributionAvg files).ltQ 5 then "Low complexity, easy to maintain"
  else if (complexityDistributionAvg files).ltQ 10 then "Moderate complexity, manageable"
  else "High complexity, consider refactoring"

/-- The guarded average of `calculateMetrics` (part_005:729):
`complexities.length > 0 ? ... : 0`. -/
def averageComplexityOf (files : List FileAnalysis) : ℚ :=
  if 0 < files.length then
    ((files.map (fun f => (f.complexity.cyclomatic : ℚ))).sum) / files.length
  else 0

/-- `Math.max(...complexities, 0)`. -/
def maxComplexityOf (files : List FileAnalysis) : Nat :=
  (files.map (·.complexity.cyclomatic)).foldr max 0

/-- The `languages` histogram of `calculateMetrics` (insertion-ordered,
like a JS object keyed by first write). -/
def languagesHistogram (files : List FileAnalysis) : List (String × Nat) :=
  files.foldl (fun m f => histIncr m f.language) []
where
  /-- `languages[l] = (languages[l] || 0) + 1`. -/
  histIncr : List (String × Nat) → String → List (String × Nat)
    | [], l => [(l, 1)]
    | (k, n) :: rest, l =>
      if k = l then (k, n + 1) :: rest else (k, n) :: histIncr rest l

/-- `calculateTechnicalDebt` (part_005:758-768): `(cyclomatic - threshold) *
0.5` for every file above the threshold. -/
def calculateTechnicalDebt (threshold : Nat) (files : List FileAnalysis) : ℚ :=
  (files.map (fun f =>
    if threshold < f.complexity.cyclomatic then
      ((f.complexity.cyclomatic - threshold : Nat) : ℚ) * (0.5 : ℚ)
    else 0)).sum

/-- `RepositoryMetrics` (the `maintainabilityIndex` field is the separate
real-valued `calculateMaintainabilityIndex` above). -/
structure RepositoryMetrics where
  totalFiles : Nat
  totalLines : Nat
  languages : List (String × Nat)
  averageComplexity : ℚ
  maxComplexity : Nat
  technicalDebt : ℚ
  deriving DecidableEq, Repr

/-- `calculateMetrics` (part_005:719-743). -/
def calculateMetrics (threshold : Nat) (files : List FileAnalysis) :
    RepositoryMetrics :=
  { totalFiles := files.length,
    totalLines := totalLinesOf files,
    languages := languagesHistogram files,
    averageComplexity := averageComplexityOf files,
    maxComplexity := maxComplexityOf files,
    technicalDebt := calculateTechnicalDebt threshold files }

/-! ## Theorems for claim C7 -/

/-- C7 (code evaluated at the failing input): on an empty analyzed-file set
(every scanned file failed to parse) the guarded `calculateMetrics` average
is 0, but `analyzeComplexityDistribution` divides `0/0`, its average is
`NaN`, both `NaN <` comparisons are false, and the "High complexity"
narrative is returned — whereas an average of 0, as the claim requires,
would select the "Low complexity" narrative. -/
theorem complexityDistribution_empty_is_nan :
    (calculateMetrics 10 []).averageComplexity = 0 ∧
    complexityDistributionAvg [] = JSVal.nan ∧
    analyzeComplexityDistribution [] = "High complexity, consider refactoring" ∧
    (JSVal.num 0).ltQ 5 = true := by
  refine ⟨by decide, by decide, by decide, by decide⟩

/-! ## Theorems for claim C5 -/

/-- C5 (counterexample): the claim "cognitive equals cyclomatic, in
particular also when the file contains classes with methods" is false: a
file with no standalone functions and one class holding a single method of
complexity 1 has `cyclomatic = 1` but `cognitive = 0`. -/
theorem cognitive_ne_cyclomatic_with_class :
    (calculateFileComplexity []
      [{ name := "C", line := 1, endLine := 3,
         methods := [{ name := "m", line := 2, endLine := 2, parameters := [],
                       complexity := 1, visibility := "public" }],
         complexity := 1, «extends» := none }]).cognitive ≠
    (calculateFileComplexity []
      [{ name := "C", line := 1, endLine := 3,
         methods := [{ name := "m", line := 2, endLine := 2, parameters := [],
                       complexity := 1, visibility := "public" }],
         complexity := 1, «extends» := none }]).cyclomatic := by
  decide

/-- C5 (amended): the cognitive score is the functions-only sum; it agrees
with cyclomatic exactly when the file's classes contribute zero aggregate
complexity (`cyclomatic = cognitive + class-complexity sum`). -/
theorem cognitive_eq_cyclomatic_iff (functions : List FunctionInfo)
    (classes : List ClassInfo) :
    (calculateFileComplexity functions classes).cyclomatic =
      (calculateFileComplexity functions classes).cognitive +
        (classes.map (·.complexity)).sum ∧
    ((calculateFileComplexity functions classes).cognitive =
        (calculateFileComplexity functions classes).cyclomatic ↔
      (classes.map (·.complexity)).sum = 0) := by
  constructor
  · rfl
  · simp [calculateFileComplexity]

/-! ## Theorems for claim C2 -/

/-- C2 (counterexample): the per-file maintainability stored in a
`ComplexityScore` is not bounded by 100: a file whose aggregate cyclomatic
complexity is 1 (e.g. a single function with no decision points, as computed
by `calculateFileComplexity`) gets maintainability
`171 - 5.2·ln 1 - 0.23 = 170.77 > 100`. -/
theorem fileMaintainability_exceeds_100 :
    (calculateFileComplexity
        [{ name := "f", line := 1, endLine := 1, parameters := [],
           complexity := 1 }] []).cyclomatic = 1 ∧
    ¬ fileMaintainability 1 ≤ 100 := by
  refine ⟨by decide, ?_⟩
  unfold fileMaintainability
  rw [Nat.cast_one, Real.log_one]
  rw [not_le, lt_max_iff]
  right
  norm_num

/-- C2 (amended): the repository-level maintainability index always lies in
[0, 100] (it is 100 when the total line count is 0 and clamped otherwise),
while the per-file maintainability is only bounded below by 0. -/
theorem maintainability_bounds :
    (∀ files : List FileAnalysis,
        0 ≤ calculateMaintainabilityIndex files ∧
        calculateMaintainabilityIndex files ≤ 100) ∧
    (∀ c : Nat, 0 ≤ fileMaintainability c) := by
  constructor
  · intro files
    unfold calculateMaintainabilityIndex
    split
    · norm_num
    · constructor
      · exact le_max_left 0 _
      · exact max_le (by norm_num) (min_le_left 100 _)
  · intro c
    exact le_max_left 0 _

end Navvi

namespace Navvi

/-! ## Relationship building (`buildRelationships`, part_005:600-673) -/

/-- The `fileToComponent` map: `components.forEach(comp =>
comp.files.forEach(f => fileToComponent.set(f, comp.name)))` — with
`Map.set` the *last* component listing a path wins. -/
def lookupComponent (components : List Component) (p : String) : Option String :=
  ((components.filter (fun c => c.files.contains p)).getLast?).map (·.name)

/-- `isInternalImport` (part_005:610-611). -/
def isInternalImport (files : List FileAnalysis) (module : String) : Bool :=
  jsStartsWith module "." || jsStartsWith module "/" ||
  files.any (fun f => jsEndsWith f.path module || jsIncludes f.path module)

/-- The fuzzy import-resolution `files.find(...)` (part_005:620-629). -/
def resolveImportedFile (files : List FileAnalysis) (module : String) :
    Option FileAnalysis :=
  files.find? (fun f =>
    f.path = module || jsEndsWith f.path module || jsIncludes f.path module ||
    jsBasename f.path = jsBasename module)

/-- One iteration of the import loop (part_005:616-640): an `imports` edge
of strength 0.8 is pushed only when both components resolve and differ. -/
def importEdge (files : List FileAnalysis) (components : List Component)
    (file : FileAnalysis) (imp : ImportInfo) : Option Relationship :=
  if ¬ isInternalImport files imp.module then none
  else
    match lookupComponent components file.path,
        (resolveImportedFile files imp.module).bind
          (fun g => lookupComponent components g.path) with
    | some fromC, some toC =>
      if fromC ≠ toC then some ⟨fromC, toC, "imports", 0.8⟩ else none
    | _, _ => none

/-- The superclass resolution `files.find(...)` (part_005:649-658), same
matching strategy as imports. -/
def resolveExtendedFile (files : List FileAnalysis) (sup : String) :
    Option FileAnalysis :=
  files.find? (fun f =>
    f.path = sup || jsEndsWith f.path sup || jsIncludes f.path sup ||
    jsBasename f.path = jsBasename sup)

/-- One iteration of the inheritance loop (part_005:644-670): an `extends`
edge of strength 0.9 is pushed only when both components resolve and
differ. -/
def extendsEdge (files : List FileAnalysis) (components : List Component)
    (file : FileAnalysis) (cls : ClassInfo) : Option Relationship :=
  match cls.extends with
  | none => none
  | some sup =>
    match lookupComponent components file.path,
        (resolveExtendedFile files sup).bind
          (fun g => lookupComponent components g.path) with
    | some fromC, some toC =>
      if fromC ≠ toC then some ⟨fromC, toC, "extends", 0.9⟩ else none
    | _, _ => none

/-- `buildRelationships` (part_005:600-673): all import edges (in file
order and, within a file, import order), then all inheritance edges. -/
def buildRelationships (files : List FileAnalysis)
    (components : List Component) : List Relationship :=
  (files.map (fun file =>
      file.imports.filterMap (importEdge files components file))).flatten ++
  (files.map (fun file =>
      file.classes.filterMap (extendsEdge files components file))).flatten

/-! ## Theorems for claim C8 -/

theorem importEdge_no_self {files : List FileAnalysis}
    {components : List Component} {file : FileAnalysis} {imp : ImportInfo}
    {r : Relationship} (h : importEdge files components file imp = some r) :
    r.from_ ≠ r.to_ := by
  unfold importEdge at h
  split at h
  · exact absurd h (by simp)
  · split at h
    · rename_i fromC toC _
      split at h
      · rename_i hne
        intro hcontra
        cases h
        exact hne hcontra
      · exact absurd h (by simp)
    · exact absurd h (by simp)

theorem extendsEdge_no_self {files : List FileAnalysis}
    {components : List Component} {file : FileAnalysis} {cls : ClassInfo}
    {r : Relationship} (h : extendsEdge files components file cls = some r) :
    r.from_ ≠ r.to_ := by
  unfold extendsEdge at h
  split at h
  · exact absurd h (by simp)
  · split at h
    · rename_i fromC toC _
      split at h
      · rename_i hne
        intro hcontra
        cases h
        exact hne hcontra
      · exact absurd h (by simp)
    · exact absurd h (by simp)

/-- C8: every relationship edge emitted by `buildRelationships` — both the
`imports` and the `extends` kind — connects two distinct components; a
self-edge is never pushed, because both loops guard the push with
`fromComponent !== toComponent`. -/
theorem buildRelationships_no_self_edges (files : List FileAnalysis)
    (components : List Component) (r : Relationship)
    (hr : r ∈ buildRelationships files components) : r.from_ ≠ r.to_ := by
  unfold buildRelationships at hr
  rw [List.mem_append] at hr
  rcases hr with hr | hr <;>
  · rw [List.mem_flatten] at hr
    obtain ⟨l, hl, hrl⟩ := hr
    rw [List.mem_map] at hl
    obtain ⟨file, _, rfl⟩ := hl
    rw [List.mem_filterMap] at hrl
    obtain ⟨x, _, hx⟩ := hrl
    first
    | exact importEdge_no_self hx
    | exact extendsEdge_no_self hx

/-- Concrete two-component scenario for the C8 witness: `a/x.ts` imports
`b/y.ts`. -/
def exImportingFile : FileAnalysis :=
  { path := "a/x.ts", language := "ts", size := 30, lines := 2,
    functions := [], classes := [], imports := [⟨"b/y.ts", ["y"], 1, false⟩],
    «exports» := [], complexity := ⟨0, 0, 0⟩,
    dependencies := ["b/y.ts"], commitCount := 0 }

/-- The imported file of the witness scenario. -/
def exImportedFile : FileAnalysis :=
  { path := "b/y.ts", language := "ts", size := 20, lines := 1,
    functions := [], classes := [], imports := [], «exports» := [],
    complexity := ⟨0, 0, 0⟩, dependencies := [], commitCount := 0 }

/-- The two components of the witness scenario. -/
def exComponents : List Component :=
  [{ name := "a", type := "component", files := ["a/x.ts"], dependencies := [],
     complexity := 0, description := "a", patterns := [] },
   { name := "b", type := "component", files := ["b/y.ts"], dependencies := [],
     complexity := 0, description := "b", patterns := [] }]

/-- C8 (witness): the scenario produces an actual edge, and the theorem
applies to it. -/
theorem buildRelationships_no_self_edges_witness :
    (⟨"a", "b", "imports", 0.8⟩ : Relationship) ∈
      buildRelationships [exImportingFile, exImportedFile] exComponents ∧
    ("a" : String) ≠ "b" := by
  have h : buildRelationships [exImportingFile, exImportedFile] exComponents =
      [⟨"a", "b", "imports", 0.8⟩] := rfl
  constructor
  · rw [h]
    exact List.mem_singleton.mpr rfl
  · exact buildRelationships_no_self_edges _ _ _ (by rw [h]; exact List.mem_singleton.mpr rfl)

end Navvi

namespace Navvi

/-! ## Component grouping (`identifyComponents`, part_005:522-556) -/

/-- One `Map.set` step of the grouping: append the path to its directory's
group, creating the group at the end (JS `Map` insertion order) if new. -/
def upsertGroup (k v : String) : List (String × List String) → List (String × List String)
  | [] => [(k, [v])]
  | (k', vs) :: rest =>
    if k' = k then (k', vs ++ [v]) :: rest
    else (k', vs) :: upsertGroup k v rest

/-- `fileGroups` (part_005:526-534): group the paths by `path.dirname`,
in file order, insertion-ordered by first occurrence of the directory. -/
def groupByDir (paths : List String) : List (String × List String) :=
  paths.foldl (fun m p => upsertGroup (dirname p) p m) []

/-- `componentDir === '.' ? 'root' : componentDir` (part_005:539). -/
def componentName (dir : String) : String :=
  if dir = "." then "root" else dir

/-- `determineComponentType` (part_005:558-567); the `dirName` parameter of
the source is unused by its logic. -/
def determineComponentType (files : List FileAnalysis) : String :=
  if files.any (fun f => jsIncludes f.path "api" || jsIncludes f.path "route") then "api"
  else if files.any (fun f => jsIncludes f.path "page" || jsIncludes f.path "component") then "page"
  else if files.any (fun f => jsIncludes f.path "service" || jsIncludes f.path "util") then "service"
  else "component"

/-- JS `Set` accumulation: keep the first occurrence of each element. -/
def dedupFirst (l : List String) : List String :=
  l.foldl (fun acc d => if acc.contains d then acc else acc ++ [d]) []

/-- `extractDependencies` (part_005:569-575). -/
def extractDependencies (files : List FileAnalysis) : List String :=
  dedupFirst ((files.map (·.dependencies)).flatten)

/-- `generateComponentDescription` (part_005:577-584). -/
def generateComponentDescription (name : String) (files : List FileAnalysis) : String :=
  let fileCount := files.length
  let totalLines := (files.map (·.lines)).sum
  let functions := (files.map (·.functions.length)).sum
  let classes := (files.map (·.classes.length)).sum
  s!"{name} component with {fileCount} files, {totalLines} lines, {functions} functions, and {classes} classes"

/-- `detectComponentPatterns` (part_005:586-598). -/
def detectComponentPatterns (files : List FileAnalysis) : List String :=
  (if files.any (fun f => f.functions.any (fun fn => jsStartsWith fn.name "use"))
   then ["React Hooks"] else []) ++
  (if files.any (fun f => f.classes.any (fun c => jsIncludes c.name "Context"))
   then ["Context Pattern"] else []) ++
  (if files.any (fun f => f.classes.any (fun c => jsIncludes c.name "Provider"))
   then ["Provider Pattern"] else [])

/-- The component built for one group (part_005:536-553). -/
def mkComponent (files : List FileAnalysis) (g : String × List String) : Component :=
  let componentFiles := files.filter (fun f => g.2.contains f.path)
  { name := componentName g.1,
    type := determineComponentType componentFiles,
    files := g.2,
    dependencies := extractDependencies componentFiles,
    complexity := (componentFiles.map (·.complexity.cyclomatic)).sum,
    description := generateComponentDescription (componentName g.1) componentFiles,
    patterns := detectComponentPatterns componentFiles }

/-- `identifyComponents` (part_005:522-556). -/
def identifyComponents (files : List FileAnalysis) : List Component :=
  (groupByDir (files.map (·.path))).map (mkComponent files)

end Navvi

namespace Navvi

/-! ## Infrastructure for the grouping partition (claim C9) -/

/-- All paths stored in a group map, in group order. -/
def groupFlat (m : List (String × List String)) : List String :=
  (m.map Prod.snd).flatten

theorem upsertGroup_flat_count (x k v : String)
    (m : List (String × List String)) :
    (groupFlat (upsertGroup k v m)).count x =
      (groupFlat m).count x + (if v = x then 1 else 0) := by
  induction m with
  | nil =>
    by_cases h : v = x <;>
      simp [upsertGroup, groupFlat, List.count_cons, h]
  | cons hd rest ih =>
    obtain ⟨k', vs⟩ := hd
    by_cases h : k' = k
    · by_cases hvx : v = x <;>
        simp [upsertGroup, h, groupFlat, List.count_append, List.count_cons, hvx] <;>
        omega
    · simp only [upsertGroup, h, if_false, groupFlat, List.map_cons,
        List.flatten_cons, List.count_append] at *
      omega

theorem foldl_upsert_flat_count (x : String) :
    ∀ (paths : List String) (acc : List (String × List String)),
    (groupFlat (paths.foldl (fun m p => upsertGroup (dirname p) p m) acc)).count x =
      (groupFlat acc).count x + paths.count x
  | [], acc => by simp
  | p :: rest, acc => by
    rw [List.foldl_cons, foldl_upsert_flat_count x rest, upsertGroup_flat_count]
    by_cases h : p = x <;> simp [List.count_cons, h] <;> omega

theorem groupByDir_flat_count (paths : List String) (x : String) :
    (groupFlat (groupByDir paths)).count x = paths.count x := by
  have := foldl_upsert_flat_count x paths []
  simpa [groupByDir, groupFlat] using this

theorem upsertGroup_forall_dir {m : List (String × List String)} {k v : String}
    (hm : ∀ g ∈ m, ∀ p ∈ g.2, dirname p = g.1) (hv : dirname v = k) :
    ∀ g ∈ upsertGroup k v m, ∀ p ∈ g.2, dirname p = g.1 := by
  induction m with
  | nil =>
    intro g hg p hp
    simp only [upsertGroup, List.mem_singleton] at hg
    subst hg
    simp only [List.mem_singleton] at hp
    subst hp
    exact hv
  | cons hd rest ih =>
    obtain ⟨k', vs⟩ := hd
    by_cases h : k' = k
    · subst h
      simp only [upsertGroup, if_true]
      intro g hg p hp
      rcases List.mem_cons.mp hg with hg | hg
      · subst hg
        rcases List.mem_append.mp hp with hp | hp
        · exact hm (k', vs) (List.mem_cons_self _ _) p hp
        · simp only [List.mem_singleton] at hp
          subst hp
          exact hv
      · exact hm g (List.mem_cons_of_mem _ hg) p hp
    · simp only [upsertGroup, h, if_false]
      intro g hg p hp
      rcases List.mem_cons.mp hg with hg | hg
      · subst hg
        exact hm (k', vs) (List.mem_cons_self _ _) p hp
      · exact ih (fun g' hg' => hm g' (List.mem_cons_of_mem _ hg')) g hg p hp

theorem foldl_upsert_forall_dir :
    ∀ (paths : List String) (acc : List (String × List String)),
    (∀ g ∈ acc, ∀ p ∈ g.2, dirname p = g.1) →
    ∀ g ∈ paths.foldl (fun m p => upsertGroup (dirname p) p m) acc,
      ∀ p ∈ g.2, dirname p = g.1
  | [], _, hacc => hacc
  | p :: rest, acc, hacc =>
    foldl_upsert_forall_dir rest _ (upsertGroup_forall_dir hacc rfl)

theorem groupByDir_forall_dir (paths : List String) :
    ∀ g ∈ groupByDir paths, ∀ p ∈ g.2, dirname p = g.1 :=
  foldl_upsert_forall_dir paths [] (by simp)

theorem upsertGroup_keys (k v : String) (m : List (String × List String)) :
    (upsertGroup k v m).map Prod.fst =
      if k ∈ m.map Prod.fst then m.map Prod.fst
      else m.map Prod.fst ++ [k] := by
  induction m with
  | nil => simp [upsertGroup]
  | cons hd rest ih =>
    obtain ⟨k', vs⟩ := hd
    by_cases h : k' = k
    · subst h
      simp [upsertGroup]
    · simp only [upsertGroup, h, if_false, List.map_cons, ih]
      by_cases hk : k ∈ rest.map Prod.fst
      · simp [hk, List.mem_cons, h, Ne.symm h]
      · simp [hk, List.mem_cons, h, Ne.symm h]

theorem foldl_upsert_keys_nodup :
    ∀ (paths : List String) (acc : List (String × List String)),
    ((acc.map Prod.fst).Nodup) →
    (((paths.foldl (fun m p => upsertGroup (dirname p) p m) acc).map Prod.fst).Nodup)
  | [], _, hacc => hacc
  | p :: rest, acc, hacc => by
    rw [List.foldl_cons]
    apply foldl_upsert_keys_nodup rest
    rw [upsertGroup_keys]
    split
    · exact hacc
    · rename_i hk
      simp [List.nodup_append, hacc, hk]

theorem groupByDir_keys_nodup (paths : List String) :
    (((groupByDir paths).map Prod.fst).Nodup) :=
  foldl_upsert_keys_nodup paths [] (by simp)

theorem foldl_upsert_keys_mem {x : String} :
    ∀ (paths : List String) (acc : List (String × List String)),
    x ∈ (paths.foldl (fun m p => upsertGroup (dirname p) p m) acc).map Prod.fst →
    x ∈ acc.map Prod.fst ∨ ∃ p ∈ paths, dirname p = x
  | [], _, hx => Or.inl hx
  | p :: rest, acc, hx => by
    rw [List.foldl_cons] at hx
    rcases foldl_upsert_keys_mem rest _ hx with hx | ⟨q, hq, hdq⟩
    · rw [upsertGroup_keys] at hx
      split at hx
      · exact Or.inl hx
      · rcases List.mem_append.mp hx with hx | hx
        · exact Or.inl hx
        · simp only [List.mem_singleton] at hx
          exact Or.inr ⟨p, List.mem_cons_self _ _, hx.symm⟩
    · exact Or.inr ⟨q, List.mem_cons_of_mem _ hq, hdq⟩

theorem groupByDir_keys_mem {x : String} {paths : List String}
    (hx : x ∈ (groupByDir paths).map Prod.fst) :
    ∃ p ∈ paths, dirname p = x := by
  rcases foldl_upsert_keys_mem paths [] hx with h | h
  · simp at h
  · exact h

end Navvi

namespace Navvi

/-! ## Theorems for claim C9 -/

/-- Root-level file for the name-collision counterexample. -/
def exRootLevelFile : FileAnalysis :=
  { path := "a.ts", language := "ts", size := 10, lines := 1,
    functions := [], classes := [], imports := [], «exports» := [],
    complexity := ⟨0, 0, 0⟩, dependencies := [], commitCount := 0 }

/-- A file inside a top-level directory literally named `root`. -/
def exRootDirFile : FileAnalysis :=
  { path := "root/b.ts", language := "ts", size := 10, lines := 1,
    functions := [], classes := [], imports := [], «exports» := [],
    complexity := ⟨0, 0, 0⟩, dependencies := [], commitCount := 0 }

/-- C9 (counterexample): component names are not always unique: the group of
root-level files is renamed from `"."` to `"root"` (part_005:539), which
collides with the component of an actual top-level directory named `root` —
two distinct components both named `"root"`. -/
theorem identifyComponents_name_collision :
    ((identifyComponents [exRootLevelFile, exRootDirFile]).map (·.name)) =
      ["root", "root"] ∧
    ¬ ((identifyComponents [exRootLevelFile, exRootDirFile]).map (·.name)).Nodup := by
  refine ⟨rfl, by decide⟩

/-- C9 (amended): component grouping partitions the analyzed files — for
duplicate-free path sets, every path lies in exactly one component's file
list and the concatenation of all components' file lists is a permutation of
the path set — and component names are unique provided renaming the root
group to `root` introduces no collision (i.e. no top-level directory is
itself named `root` while root-level files exist). -/
theorem identifyComponents_partition (files : List FileAnalysis)
    (hnodup : (files.map (·.path)).Nodup)
    (hinj : ∀ p₁ ∈ files.map (·.path), ∀ p₂ ∈ files.map (·.path),
        componentName (dirname p₁) = componentName (dirname p₂) →
        dirname p₁ = dirname p₂) :
    (∀ p ∈ files.map (·.path),
        ∃! c, c ∈ identifyComponents files ∧ p ∈ c.files) ∧
    List.Perm (((identifyComponents files).map (·.files)).flatten)
      (files.map (·.path)) ∧
    ((identifyComponents files).map (·.name)).Nodup := by
  have hfileseq : ((identifyComponents files).map (·.files)) =
      (groupByDir (files.map (·.path))).map Prod.snd := by
    rw [identifyComponents, List.map_map]
    exact List.map_congr_left (fun g _ => rfl)
  have hnameseq : ((identifyComponents files).map (·.name)) =
      ((groupByDir (files.map (·.path))).map Prod.fst).map componentName := by
    rw [identifyComponents, List.map_map, List.map_map]
    exact List.map_congr_left (fun g _ => rfl)
  refine ⟨?_, ?_, ?_⟩
  · intro p hp
    have hcount : (groupFlat (groupByDir (files.map (·.path)))).count p =
        (files.map (·.path)).count p := groupByDir_flat_count _ p
    have hone : (files.map (·.path)).count p = 1 :=
      List.count_eq_one_of_mem hnodup hp
    have hmem : p ∈ groupFlat (groupByDir (files.map (·.path))) := by
      rw [← List.count_pos_iff, hcount, hone]
      omega
    rw [groupFlat, List.mem_flatten] at hmem
    obtain ⟨l, hl, hpl⟩ := hmem
    rw [List.mem_map] at hl
    obtain ⟨g, hg, rfl⟩ := hl
    refine ⟨mkComponent files g, ⟨List.mem_map_of_mem _ hg, hpl⟩, ?_⟩
    rintro c' ⟨hc', hpc'⟩
    rw [identifyComponents, List.mem_map] at hc'
    obtain ⟨g', hg', rfl⟩ := hc'
    have hd : dirname p = g'.1 :=
      groupByDir_forall_dir _ g' hg' p hpc'
    have hd2 : dirname p = g.1 :=
      groupByDir_forall_dir _ g hg p hpl
    have hkeys := groupByDir_keys_nodup (files.map (·.path))
    have : g' = g := by
      apply List.inj_on_of_nodup_map hkeys hg' hg
      rw [← hd, ← hd2]
    rw [this]
  · rw [hfileseq]
    rw [List.perm_iff_count]
    intro x
    exact groupByDir_flat_count _ x
  · rw [hnameseq]
    apply List.Nodup.map_on ?_ (groupByDir_keys_nodup _)
    intro x hx y hy hxy
    obtain ⟨px, hpx, rfl⟩ := groupByDir_keys_mem hx
    obtain ⟨py, hpy, rfl⟩ := groupByDir_keys_mem hy
    exact hinj px hpx py hpy hxy

/-- First witness file for the partition theorem. -/
def exSrcFile : FileAnalysis :=
  { path := "src/x.ts", language := "ts", size := 10, lines := 1,
    functions := [], classes := [], imports := [], «exports» := [],
    complexity := ⟨0, 0, 0⟩, dependencies := [], commitCount := 0 }

/-- Second witness file for the partition theorem. -/
def exLibFile : FileAnalysis :=
  { path := "lib/y.ts", language := "ts", size := 10, lines := 1,
    functions := [], classes := [], imports := [], «exports» := [],
    complexity := ⟨0, 0, 0⟩, dependencies := [], commitCount := 0 }

/-- C9 (witness for the amended theorem): a duplicate-free two-file set in
two directories satisfies both hypotheses, and the theorem applies. -/
theorem identifyComponents_partition_witness :
    (([exSrcFile, exLibFile].map (·.path)).Nodup) ∧
    (∀ p₁ ∈ [exSrcFile, exLibFile].map (·.path),
        ∀ p₂ ∈ [exSrcFile, exLibFile].map (·.path),
        componentName (dirname p₁) = componentName (dirname p₂) →
        dirname p₁ = dirname p₂) ∧
    ((∀ p ∈ [exSrcFile, exLibFile].map (·.path),
        ∃! c, c ∈ identifyComponents [exSrcFile, exLibFile] ∧ p ∈ c.files) ∧
     List.Perm (((identifyComponents [exSrcFile, exLibFile]).map (·.files)).flatten)
       ([exSrcFile, exLibFile].map (·.path)) ∧
     ((identifyComponents [exSrcFile, exLibFile]).map (·.name)).Nodup) :=
  ⟨by decide, by decide,
    identifyComponents_partition [exSrcFile, exLibFile] (by decide) (by decide)⟩

end Navvi

namespace Navvi

/-! ## Architecture assembly and insights (`buildArchitecture`,
`generateInsights`, `generateLearningPath`; part_005:506-911)

The code-quality label and the issue/recommendation lists compare the
real-valued maintainability index against thresholds, so the corresponding
definitions (and the orchestrator that uses them) are noncomputable; the
scan-empty branch of the orchestrator never reaches them. -/

/-- One architecture layer (`identifyLayers`, part_005:675-683). -/
structure LayerInfo where
  name : String
  components : List Component
  deriving DecidableEq, Repr

/-- `identifyLayers`: the three fixed layers, empty ones filtered away. -/
def identifyLayers (components : List Component) : List LayerInfo :=
  ([{ name := "Presentation",
      components := components.filter (fun c => c.type = "page" || c.type = "component") },
    { name := "Business Logic",
      components := components.filter (fun c => c.type = "service") },
    { name := "Data Access",
      components := components.filter (fun c => c.type = "api") }] : List LayerInfo).filter
    (fun l => 0 < l.components.length)

/-- One detected pattern (`detectPatterns`, part_005:685-712). -/
structure PatternInfo where
  name : String
  confidence : ℚ
  files : List String
  description : String
  deriving DecidableEq, Repr

/-- `detectPatterns` (part_005:685-712). -/
def detectPatterns (files : List FileAnalysis) (_components : List Component) :
    List PatternInfo :=
  (if files.any (fun f => f.functions.any (fun fn => jsStartsWith fn.name "use")) then
    [{ name := "React Hooks Pattern", confidence := 0.9,
       files := (files.filter (fun f =>
         f.functions.any (fun fn => jsStartsWith fn.name "use"))).map (·.path),
       description := "Uses React Hooks for state management and side effects" }]
   else []) ++
  (if (files.any (fun f => f.classes.any (fun c => jsIncludes c.name "Context"))) &&
      (files.any (fun f => f.classes.any (fun c => jsIncludes c.name "Provider"))) then
    [{ name := "Context Provider Pattern", confidence := 0.8,
       files := (files.filter (fun f => f.classes.any (fun c =>
         jsIncludes c.name "Context" || jsIncludes c.name "Provider"))).map (·.path),
       description := "Uses React Context for global state management" }]
   else [])

/-- `ArchitectureAnalysis` (`dataFlow` is always the empty list,
part_005:714-717). -/
structure ArchitectureAnalysis where
  components : List Component
  relationships : List Relationship
  layers : List LayerInfo
  patterns : List PatternInfo
  dataFlow : List String
  deriving DecidableEq, Repr

/-- `buildArchitecture` (part_005:506-520). -/
def buildArchitecture (files : List FileAnalysis) : ArchitectureAnalysis :=
  let components := identifyComponents files
  { components := components,
    relationships := buildRelationships files components,
    layers := identifyLayers components,
    patterns := detectPatterns files components,
    dataFlow := [] }

/-- One learning module (`generateLearningModules`, part_005:884-911). -/
structure LearningModule where
  title : String
  description : String
  files : List String
  concepts : List String
  estimatedTime : Nat
  deriving DecidableEq, Repr

/-- `LearningPath` (part_005:861-882). -/
structure LearningPath where
  difficulty : String
  estimatedTime : Nat
  modules : List LearningModule
  prerequisites : List String
  deriving DecidableEq, Repr

/-- `generateLearningModules` (part_005:884-911).
`components.map(c => c.files[0]).filter(Boolean)` drops components with no
files (`undefined`) and empty-string paths (both falsy). -/
def generateLearningModules (files : List FileAnalysis)
    (architecture : ArchitectureAnalysis) : List LearningModule :=
  let coreFiles := (files.filter (fun f => 5 < f.complexity.cyclomatic)).map (·.path)
  [{ title := "Architecture Overview",
     description := "Understand the overall structure and organization of the codebase",
     files := (architecture.components.filterMap (fun c => c.files.head?)).filter
       (fun s => s ≠ ""),
     concepts := ["Component organization", "Dependency management", "File structure"],
     estimatedTime := 30 }] ++
  (if 0 < coreFiles.length then
    [{ title := "Core Functionality",
       description := "Learn about the main business logic and key functions",
       files := coreFiles.take 5,
       concepts := ["Business logic", "Function complexity", "Code patterns"],
       estimatedTime := 45 }]
   else [])

/-- `generateLearningPath` (part_005:861-882). -/
def generateLearningPath (files : List FileAnalysis)
    (architecture : ArchitectureAnalysis) : LearningPath :=
  let totalComplexity := totalComplexityOf files
  let totalLines := totalLinesOf files
  let modules := generateLearningModules files architecture
  let prerequisites := ["Basic JavaScript/TypeScript knowledge",
                        "Understanding of React concepts"]
  if 100 < totalComplexity || 5000 < totalLines then
    { difficulty := "advanced", estimatedTime := 8,
      modules := modules, prerequisites := prerequisites }
  else if 50 < totalComplexity || 2000 < totalLines then
    { difficulty := "intermediate", estimatedTime := 4,
      modules := modules, prerequisites := prerequisites }
  else
    { difficulty := "beginner", estimatedTime := 2,
      modules := modules, prerequisites := prerequisites }

/-- `determineArchitecturalStyle` (part_005:800-810). -/
def determineArchitecturalStyle (architecture : ArchitectureAnalysis) : String :=
  let componentTypes := architecture.components.map (·.type)
  let hasPages := componentTypes.contains "page"
  let hasApis := componentTypes.contains "api"
  let hasServices := componentTypes.contains "service"
  if hasPages && hasApis && hasServices then "Full-Stack Application"
  else if hasPages && !hasApis then "Frontend Application"
  else if hasApis && !hasPages then "Backend API"
  else "Component Library"

/-- `assessCodeQuality` (part_005:812-817): strict thresholds on the
real-valued maintainability index. -/
noncomputable def assessCodeQuality (maintainabilityIndex : ℝ) : String :=
  if 80 < maintainabilityIndex then "Excellent"
  else if 60 < maintainabilityIndex then "Good"
  else if 40 < maintainabilityIndex then "Fair"
  else "Needs Improvement"

/-- `identifyPotentialIssues` (part_005:828-844); the maintainability index
of the metrics record is passed separately (see `RepositoryMetrics`). -/
noncomputable def identifyPotentialIssues (metrics : RepositoryMetrics)
    (maintainabilityIndex : ℝ) : List String :=
  (if 10 < metrics.averageComplexity then
    ["High average complexity - consider breaking down complex functions"] else []) ++
  (if 20 < metrics.maxComplexity then
    ["Very high complexity in some files - immediate refactoring needed"] else []) ++
  (if maintainabilityIndex < 50 then
    ["Low maintainability index - code quality improvements recommended"] else [])

/-- `generateRecommendations` (part_005:846-859). -/
noncomputable def generateRecommendations (metrics : RepositoryMetrics)
    (maintainabilityIndex : ℝ) : List String :=
  (if 10 < metrics.averageComplexity then
    ["Break down complex functions into smaller, more manageable pieces"] else []) ++
  (if maintainabilityIndex < 60 then
    ["Add more comprehensive documentation and comments",
     "Consider implementing unit tests for critical functions"] else [])

/-- Stable insertion step for a descending sort (models JS `sort((a, b) =>
key(b) - key(a))`, which is stable and descending). -/
def insertDesc (key : α → Nat) (x : α) : List α → List α
  | [] => [x]
  | y :: ys => if key y < key x then x :: y :: ys else y :: insertDesc key x ys

/-- Stable descending sort by a numeric key. -/
def sortByDesc (key : α → Nat) (l : List α) : List α :=
  l.foldl (fun acc x => insertDesc key x acc) []

/-- `highComplexityFiles` (part_005:771-775). -/
def highComplexityFilesOf (threshold : Nat) (files : List FileAnalysis) :
    List (String × Nat) :=
  ((sortByDesc (fun f => f.complexity.cyclomatic)
      (files.filter (fun f => threshold < f.complexity.cyclomatic))).take 5).map
    (fun f => (f.path, f.complexity.cyclomatic))

/-- `hotspots` (part_005:777-781): at least 2 commits. -/
def hotspotsOf (files : List FileAnalysis) : List (String × Nat) :=
  ((sortByDesc (fun f => f.commitCount)
      (files.filter (fun f => 1 < f.commitCount))).take 5).map
    (fun f => (f.path, f.commitCount))

/-- The `insights` object (part_005:770-798).  The scan-empty branch of the
orchestrator omits the three top-N lists; they are modelled as empty lists
there. -/
structure Insights where
  architecturalStyle : String
  codeQuality : String
  complexityDistribution : String
  potentialIssues : List String
  recommendations : List String
  learningPath : LearningPath
  highComplexityFiles : List (String × Nat)
  hotspots : List (String × Nat)
  entryPoints : List (String × List String)
  deriving DecidableEq, Repr

/-- `generateInsights` (part_005:770-798); `threshold` is
`config.complexityThreshold` and `maintainabilityIndex` the repo-level
index of the metrics. -/
noncomputable def generateInsights (threshold : Nat) (files : List FileAnalysis)
    (architecture : ArchitectureAnalysis) (metrics : RepositoryMetrics)
    (maintainabilityIndex : ℝ) : Insights :=
  { architecturalStyle := determineArchitecturalStyle architecture,
    codeQuality := assessCodeQuality maintainabilityIndex,
    complexityDistribution := analyzeComplexityDistribution files,
    potentialIssues := identifyPotentialIssues metrics maintainabilityIndex,
    recommendations := generateRecommendations metrics maintainabilityIndex,
    learningPath := generateLearningPath files architecture,
    highComplexityFiles := highComplexityFilesOf threshold files,
    hotspots := hotspotsOf files,
    entryPoints := entryPointsOf files }

/-- The terminal aggregate (`RepositoryAnalysis`); the real-valued
maintainability index of the metrics is the separate
`repositoryMaintainabilityIndex` below, and the IO-bound `timestamp` is not
modelled. -/
structure RepositoryAnalysis where
  repository : String
  files : List FileAnalysis
  architecture : ArchitectureAnalysis
  metrics : RepositoryMetrics
  insights : Insights

/-- The literal empty analysis returned when the scan finds no supported
files (part_005:125-163; its `criticalPaths: []` field appears only in this
branch of the source and is not modelled). -/
def emptyRepositoryAnalysis (repoName : String) : RepositoryAnalysis :=
  { repository := repoName,
    files := [],
    architecture := { components := [], relationships := [], layers := [],
                      patterns := [], dataFlow := [] },
    metrics := { totalFiles := 0, totalLines := 0, languages := [],
                 averageComplexity := 0, maxComplexity := 0, technicalDebt := 0 },
    insights := { architecturalStyle := "Unknown", codeQuality := "Unknown",
                  complexityDistribution := "No supported files found",
                  potentialIssues := ["Repository contains no supported file types"],
                  recommendations := ["Add JavaScript, TypeScript, JSX, or TSX files"],
                  learningPath := { difficulty := "beginner", estimatedTime := 0,
                                    modules := [], prerequisites := [] },
                  highComplexityFiles := [], hotspots := [], entryPoints := [] } }

/-- The orchestrator after clone and scan (part_005:120-215): on an empty
scan result, return the literal empty analysis; otherwise analyze each
scanned file (per-file failures yield `none` and are dropped), then build
architecture, metrics and insights.  `analyzeFile` abstracts the external
parser pipeline; `threshold` is `config.complexityThreshold`. -/
noncomputable def analyzeRepositoryCore (repoName : String)
    (scannedFiles : List String) (analyzeFile : String → Option FileAnalysis)
    (threshold : Nat) : RepositoryAnalysis :=
  if scannedFiles.isEmpty then emptyRepositoryAnalysis repoName
  else
    let fileAnalyses := scannedFiles.filterMap analyzeFile
    let architecture := buildArchitecture fileAnalyses
    let metrics := calculateMetrics threshold fileAnalyses
    let insights := generateInsights threshold fileAnalyses architecture metrics
      (calculateMaintainabilityIndex fileAnalyses)
    { repository := repoName, files := fileAnalyses,
      architecture := architecture, metrics := metrics, insights := insights }

/-- The `maintainabilityIndex` component of the produced metrics: the
literal 100 in the scan-empty branch (part_005:145), the repo formula
otherwise (part_005:731). -/
noncomputable def repositoryMaintainabilityIndex (scannedFiles : List String)
    (analyzeFile : String → Option FileAnalysis) : ℝ :=
  if scannedFiles.isEmpty then 100
  else calculateMaintainabilityIndex (scannedFiles.filterMap analyzeFile)

/-! ## Theorems for claim C10 -/

/-- C10: when the scan yields zero eligible files the orchestrator returns —
without any error path — the well-formed empty analysis: zero totals, zero
averages and debt, an empty language histogram, maintainability index 100,
the deterministic no-supported-files insight texts, and empty file and
architecture lists. -/
theorem analyzeRepository_empty_scan (repoName : String)
    (scanned : List String) (analyzeFile : String → Option FileAnalysis)
    (threshold : Nat) (h : scanned = []) :
    (analyzeRepositoryCore repoName scanned analyzeFile threshold).metrics.totalFiles = 0 ∧
    (analyzeRepositoryCore repoName scanned analyzeFile threshold).metrics.totalLines = 0 ∧
    (analyzeRepositoryCore repoName scanned analyzeFile threshold).metrics.averageComplexity = 0 ∧
    (analyzeRepositoryCore repoName scanned analyzeFile threshold).metrics.maxComplexity = 0 ∧
    (analyzeRepositoryCore repoName scanned analyzeFile threshold).metrics.technicalDebt = 0 ∧
    (analyzeRepositoryCore repoName scanned analyzeFile threshold).metrics.languages = [] ∧
    repositoryMaintainabilityIndex scanned analyzeFile = 100 ∧
    (analyzeRepositoryCore repoName scanned analyzeFile threshold).insights.architecturalStyle = "Unknown" ∧
    (analyzeRepositoryCore repoName scanned analyzeFile threshold).insights.codeQuality = "Unknown" ∧
    (analyzeRepositoryCore repoName scanned analyzeFile threshold).insights.complexityDistribution =
      "No supported files found" ∧
    (analyzeRepositoryCore repoName scanned analyzeFile threshold).insights.potentialIssues =
      ["Repository contains no supported file types"] ∧
    (analyzeRepositoryCore repoName scanned analyzeFile threshold).insights.recommendations =
      ["Add JavaScript, TypeScript, JSX, or TSX files"] ∧
    (analyzeRepositoryCore repoName scanned analyzeFile threshold).insights.learningPath =
      { difficulty := "beginner", estimatedTime := 0, modules := [], prerequisites := [] } ∧
    (analyzeRepositoryCore repoName scanned analyzeFile threshold).files = [] ∧
    (analyzeRepositoryCore repoName scanned analyzeFile threshold).architecture.components = [] ∧
    (analyzeRepositoryCore repoName scanned analyzeFile threshold).architecture.relationships = [] := by
  subst h
  refine ⟨rfl, rfl, rfl, rfl, rfl, rfl, rfl, rfl, rfl, rfl, rfl, rfl, rfl, rfl, rfl, rfl⟩

/-- C10 (witness): the empty-scan conclusion at a concrete input. -/
theorem analyzeRepository_empty_scan_witness :
    ([] : List String) = [] ∧
    ((analyzeRepositoryCore "navvi" [] (fun _ => none) 10).metrics.totalFiles = 0 ∧
     (analyzeRepositoryCore "navvi" [] (fun _ => none) 10).metrics.totalLines = 0 ∧
     (analyzeRepositoryCore "navvi" [] (fun _ => none) 10).metrics.averageComplexity = 0 ∧
     (analyzeRepositoryCore "navvi" [] (fun _ => none) 10).metrics.maxComplexity = 0 ∧
     (analyzeRepositoryCore "navvi" [] (fun _ => none) 10).metrics.technicalDebt = 0 ∧
     (analyzeRepositoryCore "navvi" [] (fun _ => none) 10).metrics.languages = [] ∧
     repositoryMaintainabilityIndex [] (fun _ => none) = 100 ∧
     (analyzeRepositoryCore "navvi" [] (fun _ => none) 10).insights.architecturalStyle = "Unknown" ∧
     (analyzeRepositoryCore "navvi" [] (fun _ => none) 10).insights.codeQuality = "Unknown" ∧
     (analyzeRepositoryCore "navvi" [] (fun _ => none) 10).insights.complexityDistribution =
       "No supported files found" ∧
     (analyzeRepositoryCore "navvi" [] (fun _ => none) 10).insights.potentialIssues =
       ["Repository contains no supported file types"] ∧
     (analyzeRepositoryCore "navvi" [] (fun _ => none) 10).insights.recommendations =
       ["Add JavaScript, TypeScript, JSX, or TSX files"] ∧
     (analyzeRepositoryCore "navvi" [] (fun _ => none) 10).insights.learningPath =
       { difficulty := "beginner", estimatedTime := 0, modules := [], prerequisites := [] } ∧
     (analyzeRepositoryCore "navvi" [] (fun _ => none) 10).files = [] ∧
     (analyzeRepositoryCore "navvi" [] (fun _ => none) 10).architecture.components = [] ∧
     (analyzeRepositoryCore "navvi" [] (fun _ => none) 10).architecture.relationships = []) :=
  ⟨rfl, analyzeRepository_empty_scan "navvi" [] (fun _ => none) 10 rfl⟩

end Navvi
